import Mathlib

/-!
Shallow embedding of `src/saltext/saltext_mysql/pillar/__init__.py` (the pillar
compilation engine) and verification of the frozen claims about it.

Conventions of the embedding:
* Python data values are modelled by the mutual inductive `Val` / `VList` /
  `VDict`; a `VDict` is an insertion-ordered association list, mirroring the
  ordered dictionaries the source manipulates (`OrderedDict`, CPython dicts).
* External collaborators (the file client, the template engine, the target
  matcher, the registered external pillar modules, the decrypt helper, the
  transport channel) are oracle functions collected in the `Collab` structure;
  an exception raised by a collaborator is an `Except.error`.
* The option dictionary `self.opts` is projected onto the `Ctx` structure:
  only the fields the embedded functions actually read appear.
* In-place mutation in the source (of `pillar`, `self.ignored_pillars`, the
  worklists of `get_tops`) is modelled by explicit state threading.
* The generic merge `salt.utils.dictupdate.merge` is imported by the source
  but its code is not part of this repository; `dmerge` below is modelled
  from the spec (see its doc comment).
-/

set_option maxHeartbeats 2000000

namespace SaltPillar

mutual

inductive Val where
  | vnull : Val
  | vbool : Bool → Val
  | vint : Int → Val
  | vstr : String → Val
  | vlist : VList → Val
  | vdict : VDict → Val
  deriving DecidableEq, Repr

inductive VList where
  | nil : VList
  | cons : Val → VList → VList
  deriving DecidableEq, Repr

inductive VDict where
  | nil : VDict
  | cons : String → Val → VDict → VDict
  deriving DecidableEq, Repr

end

deriving instance DecidableEq for Except

/-- Character-list core of delimiter splitting (`str.split(sep)` with the
one-character separators the source uses: the hard-coded `":"` of the
include key wrapper and the configured decrypt delimiter, `":"` by
default; multi-character delimiters are not modelled). -/
def splitCharsAux (c : Char) : List Char → List (List Char)
  | [] => [[]]
  | ch :: rest =>
      let r := splitCharsAux c rest
      if ch = c then [] :: r
      else
        match r with
        | [] => [[ch]]
        | first :: others => (ch :: first) :: others

/-- `s.split(c)` for a one-character separator. -/
def splitOnC (c : Char) (s : String) : List String :=
  (splitCharsAux c s.data).map (fun l => String.mk l)

/-- Python truthiness of a value (`if x:`). -/
def truthy : Val → Bool
  | .vnull => false
  | .vbool b => b
  | .vint n => n ≠ 0
  | .vstr s => s ≠ ""
  | .vlist .nil => false
  | .vlist _ => true
  | .vdict .nil => false
  | .vdict _ => true

/-- `isinstance(x, dict)`. -/
def Val.isDictV : Val → Bool
  | .vdict _ => true
  | _ => false

/-- `isinstance(x, list)`. -/
def Val.isListV : Val → Bool
  | .vlist _ => true
  | _ => false

def VList.toList : VList → List Val
  | .nil => []
  | .cons v rest => v :: rest.toList

def listToVList : List Val → VList
  | [] => .nil
  | v :: rest => .cons v (listToVList rest)

def VDict.pairs : VDict → List (String × Val)
  | .nil => []
  | .cons k v rest => (k, v) :: rest.pairs

def pairsToVDict : List (String × Val) → VDict
  | [] => .nil
  | (k, v) :: rest => .cons k v (pairsToVDict rest)

/-- Dictionary item lookup; keys of a Python dict are unique, so the first
occurrence is the binding. -/
def VDict.lookupV : VDict → String → Option Val
  | .nil, _ => none
  | .cons k v rest, key => if k = key then some v else rest.lookupV key

/-- Dictionary item assignment `d[key] = nv`: an existing key keeps its
position, a new key is appended, as in CPython dicts. -/
def VDict.setV : VDict → String → Val → VDict
  | .nil, key, nv => .cons key nv .nil
  | .cons k v rest, key, nv =>
      if k = key then .cons k nv rest else .cons k v (rest.setV key nv)

/-- `d.pop(key)` restricted to its removal effect. -/
def VDict.removeV : VDict → String → VDict
  | .nil, _ => .nil
  | .cons k v rest, key =>
      if k = key then rest.removeV key else .cons k v (rest.removeV key)

/-- Lookup on a `Val` that is expected to be a dict (`x.get(key)` /
`x[key]`); a non-dict resolves to nothing. -/
def lookupD (v : Val) (key : String) : Option Val :=
  match v with
  | .vdict d => d.lookupV key
  | _ => none

/-- Item assignment on a `Val` expected to be a dict; assignment on a
non-dict raises in Python and is left unchanged here (no claim exercises
that corner). -/
def setD (v : Val) (key : String) (nv : Val) : Val :=
  match v with
  | .vdict d => .vdict (d.setV key nv)
  | _ => v

/-- Association-list lookup used for state threaded outside `Val`
(defaultdicts and plain dicts of the source keyed by strings). -/
def lookupA {α : Type} : List (String × α) → String → Option α
  | [], _ => none
  | (k, v) :: rest, key => if k = key then some v else lookupA rest key

/-- Association-list assignment with CPython dict semantics: existing key
keeps its position, new key appended. -/
def setA {α : Type} : List (String × α) → String → α → List (String × α)
  | [], key, nv => [(key, nv)]
  | (k, v) :: rest, key, nv =>
      if k = key then (k, nv) :: rest else (k, v) :: setA rest key nv

/-- Two-level defaultdict assignment `m[e][t] = v` (the outer defaultdict
creates an empty inner mapping on first use). -/
def setA2 {α : Type} (m : List (String × List (String × α))) (e t : String) (v : α) :
    List (String × List (String × α)) :=
  match lookupA m e with
  | some inner => setA m e (setA inner t v)
  | none => m ++ [(e, [(t, v)])]

/-- Two-level lookup `m[e][t]`. -/
def lookupA2 {α : Type} (m : List (String × List (String × α))) (e t : String) : Option α :=
  match lookupA m e with
  | some inner => lookupA inner t
  | none => none

/-- defaultdict(list)-style append `m[e].append(v)`. -/
def appendA {α : Type} (m : List (String × List α)) (e : String) (v : α) :
    List (String × List α) :=
  match lookupA m e with
  | some xs => setA m e (xs ++ [v])
  | none => m ++ [(e, [v])]

/-- defaultdict(list)-style extend `m[e].extend(vs)`. -/
def extendA {α : Type} (m : List (String × List α)) (e : String) (vs : List α) :
    List (String × List α) :=
  match lookupA m e with
  | some xs => setA m e (xs ++ vs)
  | none => m ++ [(e, vs)]

/-- Set insertion for the `mods` visited set (`mods.add(sls)`); only
membership is observable, insertion order is kept for determinism. -/
def insertS (mods : List String) (s : String) : List String :=
  if s ∈ mods then mods else mods ++ [s]

mutual

/-- Modelled from the spec: the MergeEngine `salt.utils.dictupdate.merge`
that the source imports is not part of this repository.  Per the spec it is
a strategy-configurable merge of two data trees for which, for every
supported strategy, `merge(a, {}) == a` holds and later arguments override
earlier arguments' scalar keys; under the default recursive strategy two
mappings merge key-wise (recursively on keys bound to mappings on both
sides) and any other conflict is won by the later argument.  `dmerge a b`
is that merge with `b` the later argument.  List-merging and alternative
strategies are not modelled; no claim selects them. -/
def dmerge (a : Val) : Val → Val
  | Val.vdict ys =>
      match a with
      | Val.vdict xs => Val.vdict (dmergeInto xs ys)
      | _ => Val.vdict ys
  | b => b

/-- Key-wise merge of the later dict `ys` into the earlier dict `xs`
(helper of `dmerge`). -/
def dmergeInto (xs : VDict) : VDict → VDict
  | .nil => xs
  | .cons k v rest =>
      dmergeInto
        (match xs.lookupV k with
         | some old => xs.setV k (dmerge old v)
         | none => xs.setV k v)
        rest

end

/-- `self.__merge` folds `merge` over its arguments; all call sites in the
source pass exactly two, so the fold is `dmerge` itself. -/
def pillarMerge (a b : Val) : Val := dmerge a b

/-- The value occupying the `renderers` positional slot of
`render_pstate` / `compile_template`.  `selfRend` is `self.rend`; `loaded`
is the registry rebuilt by `render_pillar` from opts carrying the current
pillar; `dataArg` records that a plain data value (the include defaults
dict) was passed into the slot, which the source does in the include
recursion of `render_pstate`. -/
inductive RendArg where
  | selfRend : RendArg
  | loaded : Val → RendArg
  | dataArg : Val → RendArg
  deriving DecidableEq, Repr

/-- The calling convention `_external_pillar_data` selects for one
registered external pillar source. -/
inductive ExtCall where
  | kwargs : String → Val → Val → ExtCall
  | positional : String → Val → Val → ExtCall
  | single : String → Val → Val → ExtCall
  | gitcall : String → Val → Val → ExtCall
  deriving DecidableEq, Repr

/-- A rendered top file: an optional `include` key (a list of top
names) next to the per-environment target sections. -/
structure Ctop where
  incl : Option (List String)
  envs : List (String × List (String × List Val))
  deriving DecidableEq, Repr

/-- External collaborators, as oracles.  An `Except.error` models an
exception raised inside the collaborator. -/
structure Collab where
  /-- `self.client.cache_file(state_top, env)`: the cached top path, `none`
  for a falsy return. -/
  cacheFile : String → String → Option String
  /-- `self.client.get_state(sls, env).get('dest', False)`: `none` models a
  falsy dest. -/
  getStateDest : String → String → Option String
  /-- `compile_template` on a top file (path if any, environment).  A falsy
  path makes the template engine return an empty structure without
  raising; the oracle decides.  Typed as `Ctop` because `get_tops` and
  `merge_tops` consume top files. -/
  renderTop : Option String → String → Except String Ctop
  /-- `compile_template` on a pillar sls file:
  file path, renderers slot, saltenv, sls, defaults (splatted kwargs). -/
  ct : String → RendArg → String → String → Val → Except String Val
  /-- `fnmatch.filter(avail, pattern)`. -/
  fnFilter : List String → String → List String
  /-- `self.matcher.confirm_top(match, data, nodegroups)` with the
  configured nodegroups fixed. -/
  confirmTop : String → List Val → Bool
  /-- `key in self.ext_pillars` (the loaded external pillar registry). -/
  extRegistered : String → Bool
  /-- Invocation of a registered external pillar callable. -/
  extSource : String → ExtCall → Except String Val
  /-- `salt.utils.crypt.decrypt(ptr, rend, ...)`, validation against the
  allowed renderer list included. -/
  decryptOracle : Val → Val → Except String Val

/-- The slice of `self` / `self.opts` the embedded methods read. -/
structure Ctx where
  collab : Collab
  minionId : String
  /-- iteration order of `self._get_envs()` (a Python set: `base` plus the
  keys of `file_roots`; iteration order is interpreter-chosen, hence a
  parameter). -/
  envs : List String
  /-- membership test backing `penv not in self.opts['file_roots']`. -/
  fileRootsEnvs : List String
  /-- `self.opts['pillarenv']`; `none` models a falsy value. -/
  pillarenv : Option String
  /-- `self.saltenv`; `none` models a falsy value. -/
  saltenvOpt : Option String
  /-- `self.opts.get('pillar_source_merging_strategy', None) == "none"`. -/
  mergingNone : Bool
  /-- `self.opts['state_top']`. -/
  stateTop : String
  /-- truthiness of `self.opts['pillar_roots'].get(env)`. -/
  pillarRootsNonempty : String → Bool
  /-- `self.opts.get('pillar_safe_render_error', True)`. -/
  safeRenderError : Bool
  /-- `self.avail`. -/
  avail : List (String × List String)
  /-- `self.opts.get('pillar', {})`. -/
  optsPillar : Val
  /-- `self.pillar_override` (already normalised to a dict by `__init__`). -/
  pillarOverride : Val
  /-- `self.opts['ext_pillar']` when the key is present. -/
  extPillarConf : Option Val
  /-- `self.opts.get('exclude_ext_pillar', [])`. -/
  excludeExt : List String
  /-- `self.opts.get('ext_pillar_first', False)`. -/
  extPillarFirst : Bool
  /-- `self.opts.get('pillar_opts', False)`. -/
  pillarOptsFlag : Bool
  /-- the sanitized `mopts` dict attached under the `master` key. -/
  masterOpts : Val
  /-- `self.opts['decrypt_pillar']` after the `repack_dictlist`
  normalisation (external helper); `none` models a falsy option. -/
  decryptConf : Option (List (String × Val))
  /-- `self.opts['decrypt_pillar_delimiter']` (one character). -/
  decryptDelim : Char
  /-- `self.opts['decrypt_pillar_default']`. -/
  decryptDefault : Val

/-! ## `Pillar.get_tops` (source lines 414-520) -/

/-- The filter at the head of the all-environments loop: with the "none"
source-merging strategy only the minion saltenv (or `base`) is scanned. -/
def envAllowed (C : Ctx) (env : String) : Bool :=
  if C.mergingNone then
    match C.saltenvOpt with
    | some se => env = se
    | none => env = "base"
  else true

/-- The initial gathering loop of `get_tops`.  The source wraps the whole
loop in one `try`, so the first exception stops the remaining
environments and appends a single error. -/
def gatherInitLoop (C : Ctx) : List String → List (String × List Ctop) →
    List (String × List Ctop) × List String
  | [], acc => (acc, [])
  | env :: rest, acc =>
      if envAllowed C env then
        match C.collab.cacheFile C.stateTop env with
        | none => gatherInitLoop C rest acc
        | some p =>
            match C.collab.renderTop (some p) env with
            | .ok ctop => gatherInitLoop C rest (appendA acc env ctop)
            | .error e =>
                (acc, ["Rendering Primary Top file failed, render error:\n" ++ e])
      else gatherInitLoop C rest acc

/-- The initial gathering phase: either the single configured pillarenv
(silently skipped when it is not a recognised environment) or every known
environment. -/
def gatherInit (C : Ctx) : List (String × List Ctop) × List String :=
  match C.pillarenv with
  | some penv =>
      if penv ∈ C.fileRootsEnvs then
        match C.collab.renderTop (C.collab.cacheFile C.stateTop penv) penv with
        | .ok ctop => ([(penv, [ctop])], [])
        | .error e =>
            ([], ["Rendering Primary Top file failed, render error:\n" ++ e])
      else ([], [])
  | none => gatherInitLoop C C.envs []

/-- Phase two of `get_tops`: pull each fragment's `include` entries into
the per-environment worklist and strip them from the fragment. -/
def extractIncl (tops : List (String × List Ctop)) :
    List (String × List Ctop) × List (String × List String) :=
  tops.foldl
    (fun acc p =>
      let env := p.1
      p.2.foldl
        (fun (acc : List (String × List Ctop) × List (String × List String)) ctop =>
          match ctop.incl with
          | none => (appendA acc.1 env ctop, acc.2)
          | some incs =>
              (appendA acc.1 env { ctop with incl := none }, extendA acc.2 env incs))
        acc)
    ([], [])

/-- One environment's slice of the include worklist. -/
def processInclEnv (C : Ctx) (env : String) :
    List String → List (String × List Ctop) × List String × List (String × List String) →
    List (String × List Ctop) × List String × List (String × List String)
  | [], st => st
  | sls :: rest, (tops, errors, done) =>
      if sls ∈ (lookupA done env).getD [] then
        processInclEnv C env rest (tops, errors, done)
      else
        let st :=
          match C.collab.renderTop (C.collab.getStateDest sls env) env with
          | .ok ctop => (appendA tops env ctop, errors, appendA done env sls)
          | .error e =>
              (tops,
               errors ++ ["Rendering Top file " ++ sls ++ " failed, render error:\n" ++ e],
               appendA done env sls)
        processInclEnv C env rest st

/-- The include worklist of `get_tops`.  The source drains the worklist
with a while loop; since rendered sub-top files are never scanned for
further includes, the loop makes exactly one pass over the initial
worklist, which this fold performs. -/
def processIncl (C : Ctx) (incl : List (String × List String))
    (tops : List (String × List Ctop)) (errors : List String) :
    List (String × List Ctop) × List String :=
  let st := incl.foldl
    (fun (st : List (String × List Ctop) × List String × List (String × List String)) p =>
      processInclEnv C p.1 p.2 st)
    (tops, errors, [])
  (st.1, st.2.1)

/-- `Pillar.get_tops`. -/
def get_tops (C : Ctx) : List (String × List Ctop) × List String :=
  let (tops0, errors) := gatherInit C
  let (tops1, incl) := extractIncl tops0
  processIncl C incl tops1 errors

/-! ## `Pillar.merge_tops` and `Pillar.sort_top_targets` (lines 522-574) -/

/-- `int(order)` coercion of an `order` entry.  Strings parse as base-10
integers, `ValueError` coerces to 0, booleans are ints in Python.  `None`
and container values raise `TypeError` in the source (caught only in
`get_top`); they are not exercised by any claim and coerce to 0 here. -/
def coerceOrder : Val → Int
  | .vint n => n
  | .vbool b => if b then 1 else 0
  | .vstr s => (s.toInt?).getD 0
  | _ => 0

/-- One step of the entry scan of `merge_tops` (the
`for comp in ctop[saltenv][tgt]` loop body): a dict entry contributes to
the `match` list, the order and the ignore-missing flag; a string entry is
collected, deduplicated, in order of first appearance. -/
def scanStep (acc : List Val × List String × Int × Bool) (comp : Val) :
    List Val × List String × Int × Bool :=
  let (ms, sts, ord, ig) := acc
  match comp with
  | .vdict d =>
      let ms := if (d.lookupV "match").isSome then ms ++ [comp] else ms
      let ord := match d.lookupV "order" with
        | some ov => coerceOrder ov
        | none => ord
      let ig := ig || (match d.lookupV "ignore_missing" with
        | some iv => truthy iv
        | none => false)
      (ms, sts, ord, ig)
  | .vstr s => (ms, if s ∈ sts then sts else sts ++ [s], ord, ig)
  | _ => (ms, sts, ord, ig)

/-- The scan of one target's entry list in `merge_tops`: collect the
`match` dict entries, the deduplicated state-name strings, the last
`order` value (0 when none is given: the source resets
`orders[saltenv][tgt] = 0` before the scan), and whether any entry sets a
truthy `ignore_missing`. -/
def scanComps (comps : List Val) : List Val × List String × Int × Bool :=
  comps.foldl scanStep ([], [], 0, false)

/-- The entry `merge_tops` records for a target: its `match` dicts followed
by the collected state names. -/
def mkTopEntry (comps : List Val) : List Val :=
  let (ms, sts, _, _) := scanComps comps
  ms ++ sts.map Val.vstr

/-- The order `merge_tops` records for a target. -/
def scanOrder (comps : List Val) : Int :=
  (scanComps comps).2.2.1

/-- State built by `merge_tops`: the merged top, the parallel order map and
`self.ignored_pillars`. -/
structure MTState where
  top : List (String × List (String × List Val))
  orders : List (String × List (String × Int))
  ignored : List (String × List String)
  deriving Repr

/-- The `(saltenv, tgt, entries)` triples visited by the nested loops of
`merge_tops`, in loop order; the `include` pseudo-environment is skipped. -/
def fragTriples (ctop : Ctop) : List (String × String × List Val) :=
  ctop.envs.flatMap
    (fun p =>
      if p.1 = "include" then []
      else p.2.map (fun q => (p.1, q.1, q.2)))

/-- All triples of all fragments, in the iteration order of
`merge_tops` (`itervalues` of the tops dict, then fragment list order). -/
def allTriples (tops : List (String × List Ctop)) : List (String × String × List Val) :=
  tops.flatMap (fun p => p.2.flatMap fragTriples)

/-- The body of the innermost loop of `merge_tops` for one
`(saltenv, tgt, entries)` triple: the target's entry list and order are
assigned (overwriting any earlier fragment's assignment), and its state
names extend `self.ignored_pillars[saltenv]` when `ignore_missing` was
seen. -/
def stepTriple (st : MTState) (tr : String × String × List Val) : MTState :=
  let (env, tgt, comps) := tr
  { top := setA2 st.top env tgt (mkTopEntry comps)
    orders := setA2 st.orders env tgt (scanOrder comps)
    ignored :=
      if (scanComps comps).2.2.2 then extendA st.ignored env (scanComps comps).2.1
      else st.ignored }

/-- The fold `merge_tops` performs before sorting. -/
def mergeTopsState (tops : List (String × List Ctop)) : MTState :=
  (allTriples tops).foldl stepTriple ⟨[], [], []⟩

/-- Stable insertion into a list sorted ascending by `key` (equal keys keep
first-seen order), modelling Python's stable `sorted`. -/
def insertStable (key : String → Int) (x : String) : List String → List String
  | [] => [x]
  | y :: ys => if key y ≤ key x then y :: insertStable key x ys else x :: y :: ys

/-- Stable ascending sort by `key`. -/
def stableSortKeys (key : String → Int) (xs : List String) : List String :=
  xs.foldl (fun acc x => insertStable key x acc) []

/-- `Pillar.sort_top_targets`: each environment's targets reordered by
their recorded order, ascending and stable. -/
def sort_top_targets (top : List (String × List (String × List Val)))
    (orders : List (String × List (String × Int))) :
    List (String × List (String × List Val)) :=
  top.map
    (fun p =>
      let env := p.1
      let tgts := p.2
      let keyOf := fun t => (lookupA ((lookupA orders env).getD []) t).getD 0
      let sortedKeys := stableSortKeys keyOf (tgts.map Prod.fst)
      (env, sortedKeys.map (fun t => (t, (lookupA tgts t).getD []))))

/-- `Pillar.merge_tops`. -/
def merge_tops (tops : List (String × List Ctop)) :
    List (String × List (String × List Val)) :=
  let st := mergeTopsState tops
  sort_top_targets st.top st.orders

/-- `Pillar.get_top`.  The `TypeError` fallback of the source cannot fire
on well-typed tops, so the merged result is returned directly. -/
def get_top (C : Ctx) : List (String × List (String × List Val)) × List String :=
  let (tops, errors) := get_tops C
  (merge_tops tops, errors)

/-! ## `Pillar.top_matches` (lines 588-614) -/

/-- Append each bare state name under a confirmed target to the
environment's match list, deduplicated (`item not in env_matches`). -/
def appendMatches (acc : List (String × List String)) (env : String)
    (data : List Val) : List (String × List String) :=
  data.foldl
    (fun acc it =>
      match it with
      | Val.vstr s =>
          let cur := (lookupA acc env).getD []
          if s ∈ cur then acc
          else match lookupA acc env with
            | some xs => setA acc env (xs ++ [s])
            | none => acc ++ [(env, [s])]
      | _ => acc)
    acc

/-- `Pillar.top_matches`. -/
def top_matches (C : Ctx) (top : List (String × List (String × List Val))) :
    List (String × List String) :=
  top.foldl
    (fun acc p =>
      let env := p.1
      let skip : Bool := match C.pillarenv with
        | some penv => env != penv
        | none => false
      if skip then acc
      else
        p.2.foldl
          (fun acc q =>
            if C.collab.confirmTop q.1 q.2 then appendMatches acc env q.2 else acc)
          acc)
    []

/-! ## `Pillar.render_pstate` (lines 616-722) -/

/-- "Specified SLS ... is not available" hard error (environment has a
configured pillar root).  The source quotes the names; quoting is elided. -/
def msgNotAvail (sls env : String) : String :=
  "Specified SLS " ++ sls ++ " in environment " ++ env ++
    " is not available on the salt master"

/-- Redacted render-failure message (`pillar_safe_render_error` on). -/
def msgRenderSafe (sls : String) : String :=
  "Rendering SLS " ++ sls ++ " failed. Please see master log for details."

/-- Full render-failure message (`pillar_safe_render_error` off). -/
def msgRenderFull (sls msg : String) : String :=
  "Rendering SLS " ++ sls ++ " failed, render error:\n" ++ msg

/-- "does not render to a dictionary" error. -/
def msgNotDict (sls : String) : String :=
  "SLS " ++ sls ++ " does not render to a dictionary"

/-- malformed include declaration error. -/
def msgInclNotList (sls : String) : String :=
  "Include Declaration in SLS " ++ sls ++ " is not formed as a list"

/-- `for key_fragment in reversed(key.split(":")): nstate = {key_fragment:
nstate}` — wrap a rendered include under its nested key path, innermost
fragment nearest the leaf. -/
def wrapKey (key : String) (v : Val) : Val :=
  (splitOnC ':' key).foldr (fun frag acc => Val.vdict (.cons frag acc .nil)) v

/-- First item of `six.iteritems(sub_sls)` for a `{name: {defaults, key}}`
include entry.  An empty dict entry raises `StopIteration` in the source;
that corner is not modelled (no claim exercises it). -/
def firstItem : VDict → String × Val
  | .nil => ("", Val.vnull)
  | .cons k v _ => (k, v)

/-- The include loop of `render_pstate` (lines 696-721).  `rp` is the
recursive render at the enclosing call's remaining fuel; its arguments are
the included name, the threaded visited set, and the value the source
passes *positionally into the renderers slot* — the local `defaults`
variable, which a `{name: {defaults, key}}` entry rebinds and which then
persists for the following entries. -/
def incLoop (rp : String → List String → Val → Option Val × List String × List String) :
    List Val → Val → List String → List String → Val →
    Val × List String × List String
  | [], st, mods, errs, _ => (st, mods, errs)
  | e :: rest, st, mods, errs, dfl =>
      let nkd : String × Val × Option Val :=
        match e with
        | Val.vdict dd =>
            let (name, v) := firstItem dd
            (name, (lookupD v "defaults").getD (Val.vdict .nil), lookupD v "key")
        | Val.vstr s => (s, dfl, none)
        | _ => ("", dfl, none)
      let name := nkd.1
      let dfl' := nkd.2.1
      let keyv := nkd.2.2
      if name ∈ mods then incLoop rp rest st mods errs dfl'
      else
        let (nst, mods', err) := rp name mods dfl'
        let st' :=
          match nst with
          | some nv =>
              if truthy nv then
                let wrapped :=
                  match keyv with
                  | some (Val.vstr k) => if k ≠ "" then wrapKey k nv else nv
                  | _ => nv
                dmerge st wrapped
              else st
          | none => st
        let errs' := errs ++ err
        incLoop rp rest st' mods' errs' dfl'

/-- `Pillar.render_pstate`.  Recursion through includes is bounded in the
source by the monotonically growing visited set; the embedding bounds it
by fuel (theorems supply enough).  The positional signature is
`(sls, saltenv, mods, renderers, defaults)`; the include recursion passes
the local `defaults` value as the fourth positional argument, i.e. into
`renderers`. -/
def render_pstate (C : Ctx) (ignored : List (String × List String)) :
    Nat → String → String → List String → Option RendArg → Option Val →
    Option Val × List String × List String
  | 0, _, _, mods, _, _ => (none, mods, [])
  | fuel + 1, sls, env, mods, rendArg, dOpt =>
      let renderers := rendArg.getD RendArg.selfRend
      let dflts := dOpt.getD (Val.vdict .nil)
      match C.collab.getStateDest sls env with
      | none =>
          if sls ∈ (lookupA ignored env).getD [] then (none, mods, [])
          else if C.pillarRootsNonempty env then (none, mods, [msgNotAvail sls env])
          else (none, mods, [])
      | some fn =>
          let se : Option Val × List String :=
            match C.collab.ct fn renderers env sls dflts with
            | .ok v => (some v, [])
            | .error e =>
                (none, [if C.safeRenderError then msgRenderSafe sls
                        else msgRenderFull sls e])
          let errs0 := se.2
          let mods1 := insertS mods sls
          match se.1 with
          | none => (none, mods1, errs0)
          | some stv =>
              if truthy stv = false then (some stv, mods1, errs0)
              else match stv with
                | Val.vdict d =>
                    match d.lookupV "include" with
                    | none => (some (Val.vdict d), mods1, errs0)
                    | some incv =>
                        match incv with
                        | Val.vlist entries =>
                            let d2 := d.removeV "include"
                            let res := incLoop
                              (fun name m dv =>
                                render_pstate C ignored fuel name env m
                                  (some (RendArg.dataArg dv)) none)
                              entries.toList (Val.vdict d2) mods1 errs0 dflts
                            (some res.1, res.2.1, res.2.2)
                        | _ =>
                            (some (Val.vdict d), mods1, errs0 ++ [msgInclNotList sls])
                | other => (some other, mods1, errs0 ++ [msgNotDict sls])

/-! ## `Pillar.render_pillar` (lines 724-783) -/

/-- "No matching pillar environment" error. -/
def msgNoEnv (env : String) : String :=
  "No matching pillar environment for environment " ++ env ++ " found"

/-- Glob expansion of one environment's requested state names against the
available file list (lines 738-750): patterns matching nothing fall back
to the literal name; a missing environment in `self.avail` appends one
error per request. -/
def expandMatches (C : Ctx) (env : String) (pstates : List String)
    (errs : List String) : List String × List String :=
  pstates.foldl
    (fun (acc : List String × List String) sm =>
      match lookupA C.avail env with
      | some av =>
          let m := C.collab.fnFilter av sm
          if m.isEmpty then (acc.1 ++ [sm], acc.2) else (acc.1 ++ m, acc.2)
      | none => (acc.1 ++ [sm], acc.2 ++ [msgNoEnv env]))
    ([], errs)

/-- The per-file render loop of `render_pillar` (lines 752-781): renders
each file with the registry rebuilt around the current pillar, appends its
errors, and folds each well-formed result into the running pillar. -/
def renderFilesLoop (C : Ctx) (ignored : List (String × List String)) (fuel : Nat)
    (env : String) :
    List String → Val → List String → List String → Val × List String
  | [], pillar, _, errs => (pillar, errs)
  | sls :: rest, pillar, mods, errs =>
      let (pst, mods', err) :=
        render_pstate C ignored fuel sls env mods (some (RendArg.loaded pillar)) none
      let errs := errs ++ err
      match pst with
      | some v =>
          match v with
          | Val.vdict _ => renderFilesLoop C ignored fuel env rest (dmerge pillar v) mods' errs
          | _ => renderFilesLoop C ignored fuel env rest pillar mods' errs
      | none => renderFilesLoop C ignored fuel env rest pillar mods' errs

/-- `Pillar.render_pillar`.  `optsPillar` is `self.opts.get('pillar', {})`
at call time (the external-first branch of `compile_pillar` overwrites it
with the external base tree before calling). -/
def render_pillar (C : Ctx) (ignored : List (String × List String)) (fuel : Nat)
    (optsPillar : Val) (tmatches : List (String × List String))
    (errs0 : List String) : Val × List String :=
  let pillar := dmerge optsPillar C.pillarOverride
  tmatches.foldl
    (fun (acc : Val × List String) p =>
      let (files, errs) := expandMatches C p.1 p.2 acc.2
      renderFilesLoop C ignored fuel p.1 files acc.1 [] errs)
    (pillar, errs0)

/-! ## `Pillar._external_pillar_data` and `Pillar.ext_pillar` (lines 785-878) -/

/-- `The "ext_pillar" option is malformed` fatal diagnostic (both the
non-list configuration and a non-dict entry use the same text). -/
def msgExtMalformed : String :=
  "The \"ext_pillar\" option is malformed"

/-- Per-source failure diagnostic. -/
def msgExtFailed (key msg : String) : String :=
  "Failed to load ext_pillar " ++ key ++ ": " ++ msg

/-- `Pillar._external_pillar_data`: choose the calling convention from the
shape of the configured args (mapping → keyword call, sequence →
positional call, scalar → single positional), with the fixed `git`
special case. -/
def external_pillar_data (C : Ctx) (pillar val pillarDirs : Val) (key : String) :
    Except String Val :=
  match val with
  | Val.vdict kw =>
      C.collab.extSource key (ExtCall.kwargs C.minionId pillar (Val.vdict kw))
  | Val.vlist xs =>
      if key = "git" then
        C.collab.extSource key (ExtCall.gitcall C.minionId (Val.vlist xs) pillarDirs)
      else
        C.collab.extSource key (ExtCall.positional C.minionId pillar (Val.vlist xs))
  | v =>
      if key = "git" then
        C.collab.extSource key (ExtCall.gitcall C.minionId v pillarDirs)
      else
        C.collab.extSource key (ExtCall.single C.minionId pillar v)

/-- The inner `for key, val in six.iteritems(run)` loop of `ext_pillar`:
unregistered keys are skipped with only a log line; an exception from one
dispatch appends exactly one error and leaves `ext` at its prior value. -/
def extKeyLoop (C : Ctx) (pillarDirs pillar : Val) :
    List (String × Val) → Option Val → List String → Option Val × List String
  | [], ext, errs => (ext, errs)
  | (k, v) :: rest, ext, errs =>
      if C.collab.extRegistered k then
        match external_pillar_data C pillar v pillarDirs k with
        | .ok e => extKeyLoop C pillarDirs pillar rest (some e) errs
        | .error m => extKeyLoop C pillarDirs pillar rest ext (errs ++ [msgExtFailed k m])
      else extKeyLoop C pillarDirs pillar rest ext errs

/-- The `for run in self.opts['ext_pillar']` loop (lines 845-878): a
non-dict entry short-circuits to `({}, errors + one fatal diagnostic)`;
an entry whose first key is excluded is skipped; otherwise the key loop
runs and a truthy result is merged into the running pillar immediately.
An entry that is an empty dict raises `StopIteration` at the exclusion
check in the source; that corner is not modelled. -/
def extRunLoop (C : Ctx) (pillarDirs : Val) :
    List Val → Val → List String → Val × List String
  | [], pillar, errs => (pillar, errs)
  | run :: rest, pillar, errs =>
      match run with
      | Val.vdict entries =>
          let pairs := entries.pairs
          let excluded : Bool :=
            match pairs.head? with
            | some p => p.1 ∈ C.excludeExt
            | none => false
          if excluded then extRunLoop C pillarDirs rest pillar errs
          else
            let (ext, errs') := extKeyLoop C pillarDirs pillar pairs none errs
            let pillar' :=
              match ext with
              | some e => if truthy e then dmerge pillar e else pillar
              | none => pillar
            extRunLoop C pillarDirs rest pillar' errs'
      | _ => (Val.vdict .nil, errs ++ [msgExtMalformed])

/-- `Pillar.ext_pillar`.  The on-demand git-fetch preamble (lines 819-833)
performs I/O only and swallows its own `TypeError`; it contributes no
data and is not modelled.  A missing `ext_pillar` key returns the pillar
untouched; a non-list value appends one fatal diagnostic and returns the
incoming pillar; otherwise the CLI override is merged in first and the
run loop processes each configured source in order. -/
def ext_pillar (C : Ctx) (pillar : Val) (pillarDirs : Val) (errs : List String) :
    Val × List String :=
  match C.extPillarConf with
  | none => (pillar, errs)
  | some conf =>
      match conf with
      | Val.vlist runs =>
          let pillar :=
            if truthy C.pillarOverride then dmerge pillar C.pillarOverride else pillar
          extRunLoop C pillarDirs runs.toList pillar errs
      | _ => (pillar, errs ++ [msgExtMalformed])

/-! ## `Pillar.decrypt_pillar` (lines 924-982) -/

/-- `salt.utils.traverse_dict(pillar, key, default=None, delimiter=...)`:
split the path on the delimiter and walk nested dicts; any failure yields
the default. -/
def traverseSegs : Val → List String → Option Val
  | v, [] => some v
  | v, k :: ks =>
      match v with
      | Val.vdict d =>
          match d.lookupV k with
          | some sub => traverseSegs sub ks
          | none => none
      | _ => none

/-- Path resolution as `decrypt_pillar` observes it: `traverse_dict`
returning its `None` default and a stored `None` value are
indistinguishable through the `ptr is None` check. -/
def resolveKey (C : Ctx) (pillar : Val) (key : String) : Option Val :=
  match traverseSegs pillar (splitOnC C.decryptDelim key) with
  | some r => if r = Val.vnull then none else some r
  | none => none

/-- `hash(ptr)` succeeding: scalars are hashable, dicts and lists are not
(tuples are not modelled). -/
def isImmutableV : Val → Bool
  | .vdict _ => false
  | .vlist _ => false
  | _ => true

/-- Functional update at a resolved dict path (models the in-place
`ptr[child] = ret` mutation of the parent container, and the in-place
rewrite of a mutable container by the decrypt helper).  Assigning through
a non-dict raises in Python; `none` reports that. -/
def setPathD : Val → List String → Val → Option Val
  | v, [k], nv =>
      (match v with
       | Val.vdict d => some (Val.vdict (d.setV k nv))
       | _ => none)
  | v, k :: k2 :: ks, nv =>
      (match v with
       | Val.vdict d =>
           match d.lookupV k with
           | some sub =>
               (setPathD sub (k2 :: ks) nv).map (fun s => Val.vdict (d.setV k s))
           | none => none
       | _ => none)
  | v, [], _ => some v

/-- Decrypt-failure diagnostic. -/
def msgDecryptFailed (key msg : String) : String :=
  "Failed to decrypt pillar key " ++ key ++ ": " ++ msg

/-- The body of `decrypt_pillar`'s per-path loop for a single configured
path.  A path that does not resolve is skipped silently.  For an immutable
(scalar) resolved value the decrypted result replaces the child key in the
parent container (`key.rpartition(delimiter)`); a mutable container is
rewritten in place by the decrypt helper.  A failing decrypt appends one
error and moves on. -/
def decryptOne (C : Ctx) (pillar : Val) (key : String) (rendv : Val) :
    Val × List String :=
  match resolveKey C pillar key with
  | none => (pillar, [])
  | some ptr =>
      let immutable := isImmutableV ptr
      let rendEff := if truthy rendv then rendv else C.decryptDefault
      match C.collab.decryptOracle ptr rendEff with
      | .error e => (pillar, [msgDecryptFailed key e])
      | .ok ret =>
          if immutable then
            let segs := splitOnC C.decryptDelim key
            match segs with
            | [] => (pillar, [])
            | [child] => (setD pillar child ret, [])
            | _ :: _ :: _ =>
                let parentSegs := segs.dropLast
                match traverseSegs pillar parentSegs with
                | some p =>
                    if p = Val.vnull then (pillar, [])
                    else
                      match setPathD pillar segs ret with
                      | some p' => (p', [])
                      | none => (pillar, [msgDecryptFailed key "TypeError"])
                | none => (pillar, [])
          else
            match setPathD pillar (splitOnC C.decryptDelim key) ret with
            | some p' => (p', [])
            | none => (pillar, [msgDecryptFailed key "TypeError"])

/-- `Pillar.decrypt_pillar`.  The mutation of the pillar dict is returned
as a new tree together with the accumulated errors. -/
def decrypt_pillar (C : Ctx) (pillar : Val) : Val × List String :=
  match C.decryptConf with
  | none => (pillar, [])
  | some conf =>
      let errs0 : List String :=
        if conf.isEmpty then ["decrypt_pillar config option is malformed"] else []
      conf.foldl
        (fun (acc : Val × List String) kv =>
          let (p', es') := decryptOne C acc.1 kv.1 kv.2
          (p', acc.2 ++ es'))
        (pillar, errs0)

/-! ## `Pillar.compile_pillar` (lines 880-922) -/

/-- The stage-ordering core of `compile_pillar` (lines 884-901): the
external-first ordering runs `ext_pillar` against the override data only,
stores the result as `self.opts['pillar']` (which `render_pillar` then
uses as its base), renders the matched states, and merges the rendered
tree as the *later* argument over the external base; the default ordering
renders first and applies external sources to the rendered tree. -/
def compileCore (C : Ctx) (fuel : Nat) (ext : Bool) (pillarDirs : Val)
    (top : List (String × List (String × List Val)))
    (ignored : List (String × List String)) : Val × List String :=
  if ext then
    if C.extPillarFirst then
      let (base, errs1) := ext_pillar C C.pillarOverride pillarDirs []
      let tm := top_matches C top
      let (pillar, errs2) := render_pillar C ignored fuel base tm errs1
      (dmerge base pillar, errs2)
    else
      let tm := top_matches C top
      let (pillar, errs1) := render_pillar C ignored fuel C.optsPillar tm []
      ext_pillar C pillar pillarDirs errs1
  else
    let tm := top_matches C top
    render_pillar C ignored fuel C.optsPillar tm []

/-- `pillar.setdefault('_errors', []).extend(decrypt_errors)`.  An existing
non-list `_errors` value raises in Python; it is left unchanged here (no
claim exercises it). -/
def appendErrorsKey (pillar : Val) (errs : List String) : Val :=
  match lookupD pillar "_errors" with
  | some (Val.vlist l) =>
      setD pillar "_errors" (Val.vlist (listToVList (l.toList ++ errs.map Val.vstr)))
  | some _ => pillar
  | none => setD pillar "_errors" (Val.vlist (listToVList (errs.map Val.vstr)))

/-- `Pillar.compile_pillar`: resolve and merge the tops (which also fills
`self.ignored_pillars`), run the configured stage ordering, append the top
errors, attach the sanitized master opts and the accumulated errors under
their reserved keys, re-merge the override on top, then run the decrypt
pass and append its errors. -/
def compile_pillar (C : Ctx) (fuel : Nat) (ext : Bool) (pillarDirs : Val) : Val :=
  let (tops, topErrors) := get_tops C
  let top := merge_tops tops
  let ignored := (mergeTopsState tops).ignored
  let (pillar, errors) := compileCore C fuel ext pillarDirs top ignored
  let errors := errors ++ topErrors
  let pillar := if C.pillarOptsFlag then setD pillar "master" C.masterOpts else pillar
  let pillar :=
    if errors.isEmpty then pillar
    else setD pillar "_errors" (Val.vlist (listToVList (errors.map Val.vstr)))
  let pillar :=
    if truthy C.pillarOverride then dmerge pillar C.pillarOverride else pillar
  let (pillar, derrs) := decrypt_pillar C pillar
  if derrs.isEmpty then pillar else appendErrorsKey pillar derrs

/-! ## `RemotePillar` and `AsyncRemotePillar` (lines 78-171) -/

/-- Fields shared by the two remote compile clients. -/
structure RemoteCtx where
  minionId : String
  grains : Val
  saltenv : Val
  pillarenv : Val
  pillarOverride : Val
  ext : Val
  deriving DecidableEq, Repr

/-- The request both clients send: the versioned `_pillar` command, with
`ext` attached only when truthy. -/
def remoteLoad (c : RemoteCtx) : Val :=
  let base : VDict :=
    .cons "id" (Val.vstr c.minionId)
      (.cons "grains" c.grains
        (.cons "saltenv" c.saltenv
          (.cons "pillarenv" c.pillarenv
            (.cons "pillar_override" c.pillarOverride
              (.cons "ver" (Val.vstr "2")
                (.cons "cmd" (Val.vstr "_pillar") .nil))))))
  if truthy c.ext then Val.vdict (base.setV "ext" c.ext) else Val.vdict base

/-- The message `AsyncRemotePillar` raises for a non-dict reply. -/
def msgBadPillar : String :=
  "Got a bad pillar from master, expecting dict"

/-- `RemotePillar.compile_pillar` (blocking): the transport call is not
wrapped, so a transport exception propagates; a non-dict reply is logged
and converted to an empty dict. -/
def RemotePillar_compile_pillar (c : RemoteCtx)
    (channel : Val → Except String Val) : Except String Val :=
  match channel (remoteLoad c) with
  | .error e => .error e
  | .ok ret => if ret.isDictV then .ok ret else .ok (Val.vdict .nil)

/-- `AsyncRemotePillar.compile_pillar` (suspending): a transport exception
becomes `SaltClientError('Exception getting pillar.')`; a non-dict reply
raises a `SaltClientError` as well. -/
def AsyncRemotePillar_compile_pillar (c : RemoteCtx)
    (channel : Val → Except String Val) : Except String Val :=
  match channel (remoteLoad c) with
  | .error _ => .error "Exception getting pillar."
  | .ok ret => if ret.isDictV then .ok ret else .error msgBadPillar

/-! ## Basic lemmas about the dictionary operations and the merge -/

def VDict.keys : VDict → List String
  | .nil => []
  | .cons k _ rest => k :: rest.keys

theorem lookupV_setV_self : ∀ (d : VDict) (k : String) (v : Val),
    (d.setV k v).lookupV k = some v
  | .nil, k, v => by simp [VDict.setV, VDict.lookupV]
  | .cons k' v' rest, k, v => by
      by_cases h : k' = k
      · simp [VDict.setV, VDict.lookupV, h]
      · simp [VDict.setV, VDict.lookupV, h, lookupV_setV_self rest k v]

theorem lookupV_setV_ne : ∀ (d : VDict) (k k' : String) (v : Val), k ≠ k' →
    (d.setV k v).lookupV k' = d.lookupV k'
  | .nil, k, k', v, h => by simp [VDict.setV, VDict.lookupV, h]
  | .cons k2 v2 rest, k, k', v, h => by
      by_cases h2 : k2 = k
      · subst h2
        simp [VDict.setV, VDict.lookupV, h]
      · simp [VDict.setV, VDict.lookupV, h2, lookupV_setV_ne rest k k' v h]

theorem lookupV_eq_none_of_not_mem_keys : ∀ (d : VDict) (k : String),
    k ∉ d.keys → d.lookupV k = none
  | .nil, k, _ => by simp [VDict.lookupV]
  | .cons k' v' rest, k, h => by
      simp only [VDict.keys, List.mem_cons, not_or] at h
      have hk : k' ≠ k := fun hh => h.1 hh.symm
      simp [VDict.lookupV, hk, lookupV_eq_none_of_not_mem_keys rest k h.2]

theorem lookupV_dmergeInto_right_none : ∀ (ys xs : VDict) (k : String),
    ys.lookupV k = none → (dmergeInto xs ys).lookupV k = xs.lookupV k
  | .nil, xs, k, _ => by simp [dmergeInto]
  | .cons k' v' rest, xs, k, h => by
      simp only [VDict.lookupV] at h
      by_cases hk : k' = k
      · simp [hk] at h
      · simp only [hk, if_false] at h
        simp only [dmergeInto]
        cases hx : xs.lookupV k' with
        | some old =>
            rw [lookupV_dmergeInto_right_none rest _ k h, lookupV_setV_ne _ _ _ _ hk]
        | none =>
            rw [lookupV_dmergeInto_right_none rest _ k h, lookupV_setV_ne _ _ _ _ hk]

theorem lookupV_dmergeInto_both : ∀ (ys xs : VDict) (k : String) (va vb : Val),
    ys.keys.Nodup → xs.lookupV k = some va → ys.lookupV k = some vb →
    (dmergeInto xs ys).lookupV k = some (dmerge va vb)
  | .nil, xs, k, va, vb, _, _, hy => by simp [VDict.lookupV] at hy
  | .cons k' v' rest, xs, k, va, vb, hnd, hx, hy => by
      simp only [VDict.keys, List.nodup_cons] at hnd
      simp only [VDict.lookupV] at hy
      by_cases hk : k' = k
      · subst hk
        rw [if_pos rfl] at hy
        injection hy with hy
        subst hy
        simp only [dmergeInto, hx]
        rw [lookupV_dmergeInto_right_none rest _ k'
              (lookupV_eq_none_of_not_mem_keys rest k' hnd.1),
            lookupV_setV_self]
      · simp only [hk, if_false] at hy
        simp only [dmergeInto]
        cases hx' : xs.lookupV k' with
        | some old =>
            exact lookupV_dmergeInto_both rest _ k va vb hnd.2
              (by rw [lookupV_setV_ne _ _ _ _ hk, hx]) hy
        | none =>
            exact lookupV_dmergeInto_both rest _ k va vb hnd.2
              (by rw [lookupV_setV_ne _ _ _ _ hk, hx]) hy

/-- A merge whose later argument is not a dict is that later argument
(later wins wholesale). -/
theorem dmerge_right_nondict (a b : Val) (h : b.isDictV = false) :
    dmerge a b = b := by
  cases b <;> simp_all [dmerge, Val.isDictV]

/-- Looking up a key bound on both sides of a merge of two dicts yields
the merge of the two bindings (keys of a Python dict are unique, whence
the Nodup hypothesis on the later side). -/
theorem lookupD_dmerge_both (xs ys : VDict) (k : String) (va vb : Val)
    (hnd : ys.keys.Nodup) (hx : xs.lookupV k = some va)
    (hy : ys.lookupV k = some vb) :
    lookupD (dmerge (Val.vdict xs) (Val.vdict ys)) k = some (dmerge va vb) := by
  simp only [dmerge, lookupD]
  exact lookupV_dmergeInto_both ys xs k va vb hnd hx hy

/-! ## Lemmas about the two-level defaultdict state of `merge_tops` -/

theorem lookupA_setA_self {α : Type} : ∀ (m : List (String × α)) (k : String) (v : α),
    lookupA (setA m k v) k = some v
  | [], k, v => by simp [setA, lookupA]
  | (k', v') :: rest, k, v => by
      by_cases h : k' = k
      · simp [setA, lookupA, h]
      · simp [setA, lookupA, h, lookupA_setA_self rest k v]

theorem lookupA_setA_ne {α : Type} : ∀ (m : List (String × α)) (k k' : String) (v : α),
    k ≠ k' → lookupA (setA m k v) k' = lookupA m k'
  | [], k, k', v, h => by simp [setA, lookupA, h]
  | (k2, v2) :: rest, k, k', v, h => by
      by_cases h2 : k2 = k
      · subst h2
        simp [setA, lookupA, h]
      · simp [setA, lookupA, h2, lookupA_setA_ne rest k k' v h]

theorem lookupA_append {α : Type} : ∀ (m l : List (String × α)) (k : String),
    lookupA (m ++ l) k =
      (match lookupA m k with
       | some v => some v
       | none => lookupA l k)
  | [], l, k => by simp [lookupA]
  | (k', v') :: rest, l, k => by
      by_cases h : k' = k
      · simp [lookupA, h]
      · simp [lookupA, h, lookupA_append rest l k]

theorem lookupA2_setA2_self {α : Type} (m : List (String × List (String × α)))
    (e t : String) (v : α) : lookupA2 (setA2 m e t v) e t = some v := by
  unfold setA2
  cases hm : lookupA m e with
  | some inner =>
      simp [lookupA2, lookupA_setA_self, lookupA_setA_self inner t v]
  | none =>
      simp [lookupA2, lookupA_append, hm, lookupA]

theorem lookupA2_setA2_other {α : Type} (m : List (String × List (String × α)))
    (e t e' t' : String) (v : α) (h : ¬(e' = e ∧ t' = t)) :
    lookupA2 (setA2 m e t v) e' t' = lookupA2 m e' t' := by
  unfold setA2
  by_cases he : e' = e
  · subst he
    have ht : t ≠ t' := fun hh => h ⟨rfl, hh.symm⟩
    cases hm : lookupA m e' with
    | some inner =>
        simp [lookupA2, lookupA_setA_self, hm, lookupA_setA_ne inner t t' v ht]
    | none =>
        simp [lookupA2, lookupA_append, hm, lookupA, ht]
  · have he' : e ≠ e' := fun hh => he hh.symm
    cases hm : lookupA m e with
    | some inner =>
        simp [lookupA2, lookupA_setA_ne m e e' _ he']
    | none =>
        simp only [lookupA2, lookupA_append]
        cases hm' : lookupA m e' with
        | some inner' => simp
        | none => simp [lookupA, he']

/-- The entry list contributed by the last triple matching `(env, tgt)`
in processing order, if any. -/
def lastComps (env tgt : String) : List (String × String × List Val) → Option (List Val)
  | [] => none
  | (e, t, c) :: rest =>
      match lastComps env tgt rest with
      | some r => some r
      | none => if e = env ∧ t = tgt then some c else none

/-- The central accumulation fact about `merge_tops`: after folding some
triples over any starting state, the recorded entry list and recorded
order for `(env, tgt)` are exactly those scanned from the last triple
mentioning `(env, tgt)` — earlier triples' contributions are replaced,
not extended. -/
theorem foldTriples_last_mention : ∀ (ts : List (String × String × List Val))
    (st : MTState) (env tgt : String),
    lookupA2 (ts.foldl stepTriple st).top env tgt =
      (match lastComps env tgt ts with
       | some c => some (mkTopEntry c)
       | none => lookupA2 st.top env tgt) ∧
    lookupA2 (ts.foldl stepTriple st).orders env tgt =
      (match lastComps env tgt ts with
       | some c => some (scanOrder c)
       | none => lookupA2 st.orders env tgt)
  | [], st, env, tgt => ⟨rfl, rfl⟩
  | (e, t, c) :: rest, st, env, tgt => by
      have ihx := foldTriples_last_mention rest (stepTriple st (e, t, c)) env tgt
      simp only [List.foldl_cons]
      cases hlast : lastComps env tgt rest with
      | some r =>
          rw [hlast] at ihx
          refine ⟨?_, ?_⟩
          · rw [ihx.1]
            simp [lastComps, hlast]
          · rw [ihx.2]
            simp [lastComps, hlast]
      | none =>
          rw [hlast] at ihx
          by_cases hc : e = env ∧ t = tgt
          · obtain ⟨he, ht⟩ := hc
            subst he
            subst ht
            refine ⟨?_, ?_⟩
            · rw [ihx.1]
              simp [lastComps, hlast, stepTriple, lookupA2_setA2_self]
            · rw [ihx.2]
              simp [lastComps, hlast, stepTriple, lookupA2_setA2_self]
          · have hc' : ¬(env = e ∧ tgt = t) := fun hh => hc ⟨hh.1.symm, hh.2.symm⟩
            refine ⟨?_, ?_⟩
            · rw [ihx.1]
              simp only [stepTriple]
              rw [lookupA2_setA2_other _ _ _ _ _ _ hc']
              simp [lastComps, hlast, hc]
            · rw [ihx.2]
              simp only [stepTriple]
              rw [lookupA2_setA2_other _ _ _ _ _ _ hc']
              simp [lastComps, hlast, hc]

/-- Shared trivial collaborators for concrete instantiations. -/
def trivCollab : Collab where
  cacheFile := fun _ _ => none
  getStateDest := fun _ _ => none
  renderTop := fun _ _ => .ok ⟨none, []⟩
  ct := fun _ _ _ _ _ => .ok Val.vnull
  fnFilter := fun av pat => av.filter (fun s => s = pat)
  confirmTop := fun _ _ => true
  extRegistered := fun _ => false
  extSource := fun _ _ => .ok Val.vnull
  decryptOracle := fun _ _ => .ok Val.vnull

/-- Shared base context for concrete instantiations. -/
def baseCtx : Ctx where
  collab := trivCollab
  minionId := "minion"
  envs := ["base"]
  fileRootsEnvs := ["base"]
  pillarenv := none
  saltenvOpt := none
  mergingNone := false
  stateTop := "top.sls"
  pillarRootsNonempty := fun _ => true
  safeRenderError := true
  avail := [("base", [])]
  optsPillar := Val.vdict .nil
  pillarOverride := Val.vdict .nil
  extPillarConf := none
  excludeExt := []
  extPillarFirst := false
  pillarOptsFlag := false
  masterOpts := Val.vdict .nil
  decryptConf := none
  decryptDelim := ':'
  decryptDefault := Val.vstr "gpg"

/-! ## Claims C2 and C10 — accumulation and ordering across top fragments -/

def c2frag1 : Ctop :=
  ⟨none, [("base", [("*", [Val.vdict (.cons "match" (Val.vstr "glob") .nil),
                           Val.vstr "s1"])])]⟩

def c2frag2 : Ctop :=
  ⟨none, [("base", [("*", [Val.vstr "s2"])])]⟩

def c2tops : List (String × List Ctop) := [("base", [c2frag1, c2frag2])]

/-- C2 counterexample: two fragments of environment `base` both target
`*`; the merged entry holds only the second fragment's state name — the
first fragment's match metadata and state name `s1` are gone, refuting
accumulation. -/
theorem merge_tops_overwrites_c2 :
    lookupA ((lookupA (merge_tops c2tops) "base").getD []) "*" = some [Val.vstr "s2"] ∧
    Val.vstr "s1" ∉ [Val.vstr "s2"] ∧
    Val.vdict (.cons "match" (Val.vstr "glob") .nil) ∉ [Val.vstr "s2"] := by
  decide

/-- C2 (amended): for every environment and target expression, the merged
entry for that `(environment, target)` is exactly the one scanned from
the *last* fragment that mentions the target (its match metadata followed
by its state names); entries contributed by earlier fragments are
replaced, not retained or appended.  `merge_tops` then only reorders the
targets. -/
theorem merge_tops_last_fragment_wins_c2 :
    ∀ (tops : List (String × List Ctop)) (env tgt : String),
      lookupA2 (mergeTopsState tops).top env tgt =
        (lastComps env tgt (allTriples tops)).map mkTopEntry ∧
      merge_tops tops =
        sort_top_targets (mergeTopsState tops).top (mergeTopsState tops).orders := by
  intro tops env tgt
  refine ⟨?_, rfl⟩
  have h := (foldTriples_last_mention (allTriples tops) ⟨[], [], []⟩ env tgt).1
  rw [mergeTopsState, h]
  cases lastComps env tgt (allTriples tops) <;> simp [lookupA2, lookupA]

/-- C10: the order `merge_tops` records for an `(environment, target)`
pair is the one scanned from the last fragment mentioning the target;
the scan starts from the reset value 0, so a last fragment without an
`order` entry records 0 and order values from earlier fragments are
discarded; `sort_top_targets` is then applied to exactly this order
map. -/
theorem merge_tops_order_last_mention_c10 :
    (∀ (tops : List (String × List Ctop)) (env tgt : String),
        lookupA2 (mergeTopsState tops).orders env tgt =
          (lastComps env tgt (allTriples tops)).map scanOrder) ∧
    (∀ comps : List Val,
        (∀ dd : VDict, Val.vdict dd ∈ comps → dd.lookupV "order" = none) →
        scanOrder comps = 0) ∧
    (∀ tops : List (String × List Ctop),
        merge_tops tops =
          sort_top_targets (mergeTopsState tops).top (mergeTopsState tops).orders) := by
  refine ⟨?_, ?_, fun _ => rfl⟩
  · intro tops env tgt
    have h := (foldTriples_last_mention (allTriples tops) ⟨[], [], []⟩ env tgt).2
    rw [mergeTopsState, h]
    cases lastComps env tgt (allTriples tops) <;> simp [lookupA2, lookupA]
  · have fold : ∀ (comps : List Val) (acc : List Val × List String × Int × Bool),
        (∀ dd : VDict, Val.vdict dd ∈ comps → dd.lookupV "order" = none) →
        (comps.foldl scanStep acc).2.2.1 = acc.2.2.1 := by
      intro comps
      induction comps with
      | nil => intro acc _; rfl
      | cons c rest ih =>
          intro acc hall
          have hrest : ∀ dd : VDict, Val.vdict dd ∈ rest → dd.lookupV "order" = none :=
            fun dd hdd => hall dd (List.mem_cons_of_mem c hdd)
          obtain ⟨ms, sts, ord, ig⟩ := acc
          cases c with
          | vdict dd =>
              have hc := hall dd (List.mem_cons_self _ _)
              simp only [List.foldl_cons, scanStep, hc]
              exact ih _ hrest
          | vstr s => simpa [scanStep] using ih _ hrest
          | vnull => simpa [scanStep] using ih _ hrest
          | vbool b => simpa [scanStep] using ih _ hrest
          | vint n => simpa [scanStep] using ih _ hrest
          | vlist l => simpa [scanStep] using ih _ hrest
    intro comps hall
    exact fold comps ([], [], 0, false) hall

/-- C10 witness: the order equation at the two-fragment input, and the
reset-to-0 fact for an entry list with no order entry. -/
theorem merge_tops_order_last_mention_c10_witness :
    lookupA2 (mergeTopsState c2tops).orders "base" "*" =
      (lastComps "base" "*" (allTriples c2tops)).map scanOrder ∧
    scanOrder [Val.vstr "s1"] = 0 :=
  ⟨merge_tops_order_last_mention_c10.1 c2tops "base" "*",
   merge_tops_order_last_mention_c10.2.1 [Val.vstr "s1"]
     (by intro dd hdd; simp at hdd)⟩

/-! ## Claim C8 — ordered, isolated external-source aggregation -/

theorem toList_listToVList : ∀ l : List Val, (listToVList l).toList = l
  | [] => rfl
  | v :: rest => by simp [listToVList, VList.toList, toList_listToVList rest]

/-- A single-key `{name: args}` run entry. -/
def mkSingleRun (kv : String × Val) : Val :=
  Val.vdict (.cons kv.1 kv.2 .nil)

/-- Modelled from the spec (reference definition for the aggregation
claim): the ExternalSourceAggregator applies the configured `(name,
args)` entries in configuration order; a raising source appends exactly
one accumulated error and processing continues; a successful (truthy)
result is folded into the running pillar immediately, so each later
dispatch receives the pillar holding all earlier successful
contributions. -/
def specExtAggregate (C : Ctx) (dirs : Val) :
    List (String × Val) → Val → List String → Val × List String
  | [], pillar, errs => (pillar, errs)
  | (k, v) :: rest, pillar, errs =>
      match external_pillar_data C pillar v dirs k with
      | .ok e =>
          specExtAggregate C dirs rest
            (if truthy e then dmerge pillar e else pillar) errs
      | .error m => specExtAggregate C dirs rest pillar (errs ++ [msgExtFailed k m])

theorem extRunLoop_eq_spec (C : Ctx) (dirs : Val) :
    ∀ (pairs : List (String × Val)) (pillar : Val) (errs : List String),
      (∀ kv ∈ pairs, C.collab.extRegistered kv.1 = true ∧ kv.1 ∉ C.excludeExt) →
      extRunLoop C dirs (pairs.map mkSingleRun) pillar errs =
        specExtAggregate C dirs pairs pillar errs
  | [], pillar, errs, _ => rfl
  | (k, v) :: rest, pillar, errs, hall => by
      have hk := hall (k, v) (List.mem_cons_self _ _)
      have hrest : ∀ kv ∈ rest, C.collab.extRegistered kv.1 = true ∧ kv.1 ∉ C.excludeExt :=
        fun kv hkv => hall kv (List.mem_cons_of_mem _ hkv)
      simp only [List.map_cons, extRunLoop, mkSingleRun, VDict.pairs, List.head?,
        specExtAggregate]
      rw [if_neg (by simpa using hk.2)]
      simp only [extKeyLoop, hk.1, if_true]
      cases hd : external_pillar_data C pillar v dirs k with
      | ok e =>
          simp only [extKeyLoop]
          exact extRunLoop_eq_spec C dirs rest _ errs hrest
      | error m =>
          simp only [extKeyLoop]
          exact extRunLoop_eq_spec C dirs rest pillar _ hrest

/-- C8: with a well-formed configuration (a sequence of single-key
mappings whose keys are registered and not excluded), `ext_pillar` is the
order-preserving fold `specExtAggregate` over the configured entries
starting from the override-merged pillar: each entry is dispatched in
configuration order with the pillar accumulated so far, an exception
appends exactly one error without stopping later dispatches, and each
truthy result is merged immediately. -/
theorem ext_pillar_isolated_ordered_c8 :
    ∀ (C : Ctx) (dirs : Val) (pairs : List (String × Val)) (pillar : Val)
      (errs : List String),
      C.extPillarConf = some (Val.vlist (listToVList (pairs.map mkSingleRun))) →
      (∀ kv ∈ pairs, C.collab.extRegistered kv.1 = true ∧ kv.1 ∉ C.excludeExt) →
      ext_pillar C pillar dirs errs =
        specExtAggregate C dirs pairs
          (if truthy C.pillarOverride then dmerge pillar C.pillarOverride else pillar)
          errs := by
  intro C dirs pairs pillar errs hconf hall
  simp only [ext_pillar, hconf, toList_listToVList]
  exact extRunLoop_eq_spec C dirs pairs _ errs hall

def c8collab : Collab :=
  { trivCollab with
    extRegistered := fun _ => true
    extSource := fun name _ =>
      if name = "s1" then .error "boom"
      else .ok (Val.vdict (.cons "k" (Val.vint 2) .nil)) }

def c8pairs : List (String × Val) :=
  [("s1", Val.vdict .nil), ("s2", Val.vdict .nil)]

def c8ctx : Ctx :=
  { baseCtx with
    collab := c8collab
    extPillarConf := some (Val.vlist (listToVList (c8pairs.map mkSingleRun))) }

/-- C8 witness: two configured sources, the first raising, the second
succeeding; the fold equation holds at this concrete input. -/
theorem ext_pillar_isolated_ordered_c8_witness :
    ext_pillar c8ctx (Val.vdict .nil) Val.vnull [] =
      specExtAggregate c8ctx Val.vnull c8pairs
        (if truthy c8ctx.pillarOverride
         then dmerge (Val.vdict .nil) c8ctx.pillarOverride
         else Val.vdict .nil) [] :=
  ext_pillar_isolated_ordered_c8 c8ctx Val.vnull c8pairs (Val.vdict .nil) []
    rfl (by decide)

/-! ## Claim C3 — top-file resolution failures -/

/-- `Except` success test. -/
def exceptOk {ε α : Type} : Except ε α → Bool
  | .ok _ => true
  | .error _ => false

/-- One environment of the initial gathering loop neither raising nor
failing to render: it is filtered out, has no cached top, or renders
successfully. -/
def initOkB (C : Ctx) (env : String) : Bool :=
  !(envAllowed C env) ||
  (match C.collab.cacheFile C.stateTop env with
   | some p => exceptOk (C.collab.renderTop (some p) env)
   | none => true)

theorem gatherInitLoop_append_ok (C : Ctx) :
    ∀ (pre rest : List String) (acc : List (String × List Ctop)),
      (∀ env ∈ pre, initOkB C env = true) →
      gatherInitLoop C (pre ++ rest) acc =
        gatherInitLoop C rest (gatherInitLoop C pre acc).1
  | [], rest, acc, _ => rfl
  | env :: pre, rest, acc, hall => by
      have h := hall env (List.mem_cons_self _ _)
      have hpre : ∀ e ∈ pre, initOkB C e = true :=
        fun e he => hall e (List.mem_cons_of_mem _ he)
      simp only [List.cons_append, gatherInitLoop]
      by_cases ha : envAllowed C env = true
      · rw [if_pos ha, if_pos ha]
        simp only [initOkB, ha, Bool.not_true, Bool.false_or] at h
        cases hc : C.collab.cacheFile C.stateTop env with
        | none => exact gatherInitLoop_append_ok C pre rest acc hpre
        | some p =>
            rw [hc] at h
            dsimp only at h ⊢
            cases hr : C.collab.renderTop (some p) env with
            | ok ctop =>
                dsimp only
                exact gatherInitLoop_append_ok C pre rest _ hpre
            | error e =>
                rw [hr] at h
                simp [exceptOk] at h
      · rw [if_neg ha, if_neg ha]
        exact gatherInitLoop_append_ok C pre rest acc hpre

/-- C3 (amended): `get_tops` never raises for a rendering failure, but in
the initial all-environments gathering a failure aborts the rest of the
loop: one error string is appended, the environments already gathered
keep their fragments, and the environments not yet visited are skipped
entirely (their top files are not fetched).  The include worklist is then
processed on whatever was gathered (per-file failures there only shorten
that environment's list, by `processInclEnv`). -/
theorem get_tops_initial_failure_aborts_c3 :
    (∀ (C : Ctx) (pre post : List String) (e p m : String),
        C.pillarenv = none →
        C.envs = pre ++ e :: post →
        (∀ env ∈ pre, initOkB C env = true) →
        envAllowed C e = true →
        C.collab.cacheFile C.stateTop e = some p →
        C.collab.renderTop (some p) e = .error m →
        gatherInit C =
          ((gatherInitLoop C pre []).1,
           ["Rendering Primary Top file failed, render error:\n" ++ m])) ∧
    (∀ C : Ctx,
        get_tops C =
          processIncl C (extractIncl (gatherInit C).1).2
            (extractIncl (gatherInit C).1).1 (gatherInit C).2) := by
  refine ⟨?_, fun C => rfl⟩
  intro C pre post e p m hpenv henvs hpre hallow hcache hrend
  simp only [gatherInit, hpenv, henvs]
  rw [gatherInitLoop_append_ok C pre (e :: post) [] hpre]
  simp [gatherInitLoop, hallow, hcache, hrend]

def c3collab : Collab :=
  { trivCollab with
    cacheFile := fun _ env => some ("cached-" ++ env)
    renderTop := fun _ env =>
      if env = "a" then .error "boom"
      else .ok ⟨none, [(env, [("*", [Val.vstr "x"])])]⟩ }

def c3ctx : Ctx :=
  { baseCtx with collab := c3collab, envs := ["z", "a", "b"] }

/-- C3 counterexample: environment `a` fails to render while `b`'s top
file renders fine, yet `get_tops` returns no fragment for `b` (and keeps
`z`'s): the failure did not only shorten `a`'s fragment list, it aborted
the fetch of every environment after it. -/
theorem get_tops_skips_later_envs_c3 :
    lookupA (get_tops c3ctx).1 "b" = none ∧
    lookupA (get_tops c3ctx).1 "z" =
      some [(⟨none, [("z", [("*", [Val.vstr "x"])])]⟩ : Ctop)] ∧
    (get_tops c3ctx).2 =
      ["Rendering Primary Top file failed, render error:\nboom"] ∧
    c3collab.renderTop (some "cached-b") "b" =
      .ok ⟨none, [("b", [("*", [Val.vstr "x"])])]⟩ := by
  decide

/-- C3 witness for the amended theorem at the same concrete input. -/
theorem get_tops_initial_failure_aborts_c3_witness :
    gatherInit c3ctx =
      ((gatherInitLoop c3ctx ["z"] []).1,
       ["Rendering Primary Top file failed, render error:\nboom"]) :=
  get_tops_initial_failure_aborts_c3.1 c3ctx ["z"] ["b"] "a" "cached-a" "boom"
    rfl rfl (by decide) (by decide) (by decide) (by decide)

/-! ## Claim C7 — include entries with a nested `key` wrapper -/

/-- Merging a nested single-key wrapper chain into any tree leaves the
wrapped leaf reachable along the wrapped path: the wrapper is the later
merge argument at every level, so at the leaf the scalar wins any
conflict and at inner levels dicts merge recursively. -/
theorem traverse_dmerge_wrapped : ∀ (fs : List String) (st : Val) (x : String) (n : Int),
    traverseSegs
      (dmerge st (fs.foldr (fun frag acc => Val.vdict (.cons frag acc .nil))
        (Val.vdict (.cons x (Val.vint n) .nil))))
      (fs ++ [x]) = some (Val.vint n)
  | [], st, x, n => by
      cases st with
      | vdict xs =>
          simp only [List.foldr_nil, List.nil_append, dmerge, dmergeInto]
          cases hx : xs.lookupV x with
          | some old =>
              have hold : dmerge old (Val.vint n) = Val.vint n := by
                cases old <;> rfl
              simp [traverseSegs, hold, lookupV_setV_self]
          | none => simp [traverseSegs, lookupV_setV_self]
      | vnull => simp [dmerge, traverseSegs, VDict.lookupV]
      | vbool b => simp [dmerge, traverseSegs, VDict.lookupV]
      | vint m => simp [dmerge, traverseSegs, VDict.lookupV]
      | vstr s => simp [dmerge, traverseSegs, VDict.lookupV]
      | vlist l => simp [dmerge, traverseSegs, VDict.lookupV]
  | f :: fs, st, x, n => by
      have chain : ∀ w : Val,
          dmerge Val.vnull (fs.foldr (fun frag acc => Val.vdict (.cons frag acc .nil))
            (Val.vdict (.cons x (Val.vint n) .nil))) =
          (fs.foldr (fun frag acc => Val.vdict (.cons frag acc .nil))
            (Val.vdict (.cons x (Val.vint n) .nil))) := by
        intro w
        cases fs with
        | nil => rfl
        | cons g gs => rfl
      cases st with
      | vdict xs =>
          simp only [List.foldr_cons, List.cons_append, dmerge, dmergeInto]
          cases hx : xs.lookupV f with
          | some old =>
              simp only [traverseSegs, lookupV_setV_self]
              exact traverse_dmerge_wrapped fs old x n
          | none =>
              simp only [traverseSegs, lookupV_setV_self]
              rw [← chain Val.vnull]
              exact traverse_dmerge_wrapped fs Val.vnull x n
      | vnull =>
          simp only [List.foldr_cons, List.cons_append, dmerge, traverseSegs,
            VDict.lookupV, if_pos rfl]
          rw [← chain Val.vnull]
          exact traverse_dmerge_wrapped fs Val.vnull x n
      | vbool b =>
          simp only [List.foldr_cons, List.cons_append, dmerge, traverseSegs,
            VDict.lookupV, if_pos rfl]
          rw [← chain Val.vnull]
          exact traverse_dmerge_wrapped fs Val.vnull x n
      | vint m =>
          simp only [List.foldr_cons, List.cons_append, dmerge, traverseSegs,
            VDict.lookupV, if_pos rfl]
          rw [← chain Val.vnull]
          exact traverse_dmerge_wrapped fs Val.vnull x n
      | vstr s =>
          simp only [List.foldr_cons, List.cons_append, dmerge, traverseSegs,
            VDict.lookupV, if_pos rfl]
          rw [← chain Val.vnull]
          exact traverse_dmerge_wrapped fs Val.vnull x n
      | vlist l =>
          simp only [List.foldr_cons, List.cons_append, dmerge, traverseSegs,
            VDict.lookupV, if_pos rfl]
          rw [← chain Val.vnull]
          exact traverse_dmerge_wrapped fs Val.vnull x n

/-- C7: a data file whose include list is `[{bar: {key: "a:b"}}]`, where
`bar` renders to `{x: 1}` and has not been visited, renders to a tree in
which the wrapped path `a:b:x` resolves to `1`, whatever else the data
file contains: the rendered include is wrapped innermost-first and merged
as the later argument. -/
theorem render_pstate_include_key_wrap_c7 :
    ∀ (C : Ctx) (ignored : List (String × List String)) (fuel : Nat)
      (sls env fnF fnB : String) (mods : List String) (body : VDict),
      C.collab.getStateDest sls env = some fnF →
      C.collab.ct fnF RendArg.selfRend env sls (Val.vdict .nil) =
        .ok (Val.vdict (.cons "include"
          (Val.vlist (.cons (Val.vdict (.cons "bar"
            (Val.vdict (.cons "key" (Val.vstr "a:b") .nil)) .nil)) .nil))
          body)) →
      C.collab.getStateDest "bar" env = some fnB →
      C.collab.ct fnB (RendArg.dataArg (Val.vdict .nil)) env "bar" (Val.vdict .nil) =
        .ok (Val.vdict (.cons "x" (Val.vint 1) .nil)) →
      "bar" ∉ insertS mods sls →
      ∃ st, (render_pstate C ignored (fuel + 2) sls env mods none none).1 = some st ∧
        traverseSegs st ["a", "b", "x"] = some (Val.vint 1) := by
  intro C ignored fuel sls env fnF fnB mods body hdestF hctF hdestB hctB hbar
  refine ⟨dmerge (Val.vdict (body.removeV "include"))
      (wrapKey "a:b" (Val.vdict (.cons "x" (Val.vint 1) .nil))), ?_, ?_⟩
  · show (render_pstate C ignored (fuel + 1 + 1) sls env mods none none).1 = _
    simp [render_pstate, incLoop, firstItem, lookupD, hdestF, hctF, hdestB, hctB,
      hbar, truthy, VDict.lookupV, VDict.removeV, VList.toList]
  · have : wrapKey "a:b" (Val.vdict (.cons "x" (Val.vint 1) .nil)) =
        (["a", "b"]).foldr (fun frag acc => Val.vdict (.cons frag acc .nil))
          (Val.vdict (.cons "x" (Val.vint 1) .nil)) := rfl
    rw [this]
    exact traverse_dmerge_wrapped ["a", "b"] (Val.vdict (body.removeV "include")) "x" 1

def c7collab : Collab :=
  { trivCollab with
    getStateDest := fun sls _ => some ("fn-" ++ sls)
    ct := fun fn _ _ _ _ =>
      if fn = "fn-foo" then
        .ok (Val.vdict (.cons "include"
          (Val.vlist (.cons (Val.vdict (.cons "bar"
            (Val.vdict (.cons "key" (Val.vstr "a:b") .nil)) .nil)) .nil))
          (.cons "other" (Val.vint 9) .nil)))
      else .ok (Val.vdict (.cons "x" (Val.vint 1) .nil)) }

def c7ctx : Ctx := { baseCtx with collab := c7collab }

/-- C7 witness: the concrete file `foo` with the `bar`/`a:b` include. -/
theorem render_pstate_include_key_wrap_c7_witness :
    ∃ st, (render_pstate c7ctx [] 2 "foo" "base" [] none none).1 = some st ∧
      traverseSegs st ["a", "b", "x"] = some (Val.vint 1) :=
  render_pstate_include_key_wrap_c7 c7ctx [] 0 "foo" "base" "fn-foo" "fn-bar" []
    (.cons "other" (Val.vint 9) .nil) rfl rfl rfl rfl (by decide)

/-! ## Claim C4 — the defaults of an include declaration -/

/-- Encoding of the renderers slot used by the C4 echo oracle. -/
def encodeRend : RendArg → Val
  | .selfRend => Val.vstr "self-rend"
  | .loaded _ => Val.vstr "loaded"
  | .dataArg v => Val.vdict (.cons "data" v .nil)

/-- A template oracle that renders `fn-foo` to a file including
`{bar: {defaults: {d: 1}}}` and renders anything else to an echo of the
renderers and defaults slots it received. -/
def c4collab : Collab :=
  { trivCollab with
    getStateDest := fun sls _ => some ("fn-" ++ sls)
    ct := fun fn rend _ _ dflts =>
      if fn = "fn-foo" then
        .ok (Val.vdict (.cons "include"
          (Val.vlist (.cons (Val.vdict (.cons "bar"
            (Val.vdict (.cons "defaults"
              (Val.vdict (.cons "d" (Val.vint 1) .nil)) .nil)) .nil)) .nil))
          .nil))
      else
        .ok (Val.vdict (.cons "got_defaults" dflts
          (.cons "got_renderers" (encodeRend rend) .nil))) }

def c4ctx : Ctx := { baseCtx with collab := c4collab }

/-- C4: rendering `foo`, whose include list is
`[{bar: {defaults: {d: 1}}}]`, shows that the nested render of `bar`
received the *empty* dict in its defaults slot and the configured
defaults dict `{d: 1}` in its renderers slot: the source passes the
extracted `defaults` value as the fourth positional argument of
`render_pstate`, which is `renderers`, so the defaults never reach the
template engine as defaults. -/
theorem render_pstate_defaults_into_renderers_slot_c4 :
    (render_pstate c4ctx [] 2 "foo" "base" [] none none).1 =
      some (Val.vdict (.cons "got_defaults" (Val.vdict .nil)
        (.cons "got_renderers"
          (Val.vdict (.cons "data"
            (Val.vdict (.cons "d" (Val.vint 1) .nil)) .nil)) .nil))) := by
  decide

/-! ## Claim C1 — external-first ordering of `compile_pillar` -/

/-- When not both sides of a conflict are mappings, the later merge
argument wins the conflict outright. -/
theorem dmerge_not_both_dicts (va vb : Val) (h : (va.isDictV && vb.isDictV) = false) :
    dmerge va vb = vb := by
  cases vb with
  | vdict ys =>
      cases va <;> simp_all [Val.isDictV, dmerge]
  | vnull => rfl
  | vbool b => rfl
  | vint n => rfl
  | vstr s => rfl
  | vlist l => rfl

/-- C1 (amended): under external-first ordering, `compile_pillar` applies
the external sources to the override data to obtain a base tree, renders
the matched states starting from that base, and merges the rendered tree
*on top of* the base, so that for every key present in both trees whose
two values are not both mappings, the *rendered* tree's value is the one
in the result of the stage core (before the override re-merge). -/
theorem compile_ext_first_rendered_wins_c1 :
    ∀ (C : Ctx) (fuel : Nat) (dirs : Val)
      (top : List (String × List (String × List Val)))
      (ignored : List (String × List String))
      (bs rs : VDict) (k : String) (va vb : Val),
      C.extPillarFirst = true →
      (ext_pillar C C.pillarOverride dirs []).1 = Val.vdict bs →
      (render_pillar C ignored fuel (Val.vdict bs) (top_matches C top)
          (ext_pillar C C.pillarOverride dirs []).2).1 = Val.vdict rs →
      rs.keys.Nodup →
      bs.lookupV k = some va →
      rs.lookupV k = some vb →
      (va.isDictV && vb.isDictV) = false →
      lookupD (compileCore C fuel true dirs top ignored).1 k = some vb := by
  intro C fuel dirs top ignored bs rs k va vb hfirst hbase hrend hnd hva hvb hnb
  simp only [compileCore, hfirst, if_true]
  rw [hbase, hrend, lookupD_dmerge_both bs rs k va vb hnd hva hvb,
    dmerge_not_both_dicts va vb hnb]

def c1collab : Collab :=
  { trivCollab with
    cacheFile := fun _ _ => some "top"
    renderTop := fun _ _ => .ok ⟨none, [("base", [("*", [Val.vstr "foo"])])]⟩
    getStateDest := fun sls _ => if sls = "foo" then some "fn-foo" else none
    ct := fun _ _ _ _ _ => .ok (Val.vdict (.cons "k" (Val.vint 2) .nil))
    extRegistered := fun _ => true
    extSource := fun _ _ => .ok (Val.vdict (.cons "k" (Val.vint 1) .nil)) }

def c1ctx : Ctx :=
  { baseCtx with
    collab := c1collab
    avail := [("base", ["foo"])]
    extPillarConf :=
      some (Val.vlist (.cons (Val.vdict (.cons "s1" (Val.vdict .nil) .nil)) .nil))
    extPillarFirst := true }

/-- C1 counterexample: with external-first ordering, the external source
sets `k = 1` (the base tree) and the matched state file renders `k = 2`;
the compiled pillar carries `k = 2` — the rendered tree, not the
external-first base, wins the conflict, refuting the claim as stated. -/
theorem compile_ext_first_base_loses_c1 :
    compile_pillar c1ctx 2 true Val.vnull = Val.vdict (.cons "k" (Val.vint 2) .nil) ∧
    (ext_pillar c1ctx c1ctx.pillarOverride Val.vnull []).1 =
      Val.vdict (.cons "k" (Val.vint 1) .nil) ∧
    Val.vint 2 ≠ Val.vint 1 := by
  decide

def c1top : List (String × List (String × List Val)) :=
  [("base", [("*", [Val.vstr "foo"])])]

/-- C1 witness for the amended theorem at the concrete scenario. -/
theorem compile_ext_first_rendered_wins_c1_witness :
    lookupD (compileCore c1ctx 2 true Val.vnull c1top []).1 "k" = some (Val.vint 2) :=
  compile_ext_first_rendered_wins_c1 c1ctx 2 Val.vnull c1top []
    (.cons "k" (Val.vint 1) .nil) (.cons "k" (Val.vint 2) .nil) "k"
    (Val.vint 1) (Val.vint 2) rfl (by decide) (by decide) (by decide) rfl rfl rfl

/-! ## Claim C6 — the remote compile clients -/

def c6ctx : RemoteCtx :=
  ⟨"m1", Val.vdict .nil, Val.vnull, Val.vnull, Val.vdict .nil, Val.vdict .nil⟩

def c6channelBad : Val → Except String Val := fun _ => .ok (Val.vstr "bogus")

def c6channelErr : Val → Except String Val := fun _ => .error "socket closed"

/-- C6 counterexample: the blocking client receives a reply that is not a
mapping (`"bogus"`) and, contrary to the claim, returns an empty tree
instead of raising. -/
theorem remote_nondict_reply_to_empty_c6 :
    (Val.vstr "bogus").isDictV = false ∧
    RemotePillar_compile_pillar c6ctx c6channelBad = .ok (Val.vdict .nil) := by
  decide

/-- C6 (amended): when the decoded reply is not a structured mapping, the
suspending client raises a client error while the blocking client logs
and returns an empty tree; when the transport raises, both clients fail
with an exception (the suspending one wrapping it in a client error, the
blocking one propagating it). -/
theorem remote_clients_error_behavior_c6 :
    (∀ (c : RemoteCtx) (channel : Val → Except String Val) (ret : Val),
        channel (remoteLoad c) = .ok ret → ret.isDictV = false →
        RemotePillar_compile_pillar c channel = .ok (Val.vdict .nil) ∧
        AsyncRemotePillar_compile_pillar c channel = .error msgBadPillar) ∧
    (∀ (c : RemoteCtx) (channel : Val → Except String Val) (e : String),
        channel (remoteLoad c) = .error e →
        RemotePillar_compile_pillar c channel = .error e ∧
        AsyncRemotePillar_compile_pillar c channel = .error "Exception getting pillar.") := by
  constructor
  · intro c channel ret h hd
    simp [RemotePillar_compile_pillar, AsyncRemotePillar_compile_pillar, h, hd]
  · intro c channel e h
    simp [RemotePillar_compile_pillar, AsyncRemotePillar_compile_pillar, h]

/-- C6 witness: both parts of the amended theorem at concrete inputs. -/
theorem remote_clients_error_behavior_c6_witness :
    (RemotePillar_compile_pillar c6ctx c6channelBad = .ok (Val.vdict .nil) ∧
     AsyncRemotePillar_compile_pillar c6ctx c6channelBad = .error msgBadPillar) ∧
    (RemotePillar_compile_pillar c6ctx c6channelErr = .error "socket closed" ∧
     AsyncRemotePillar_compile_pillar c6ctx c6channelErr = .error "Exception getting pillar.") :=
  ⟨remote_clients_error_behavior_c6.1 c6ctx c6channelBad (Val.vstr "bogus") rfl rfl,
   remote_clients_error_behavior_c6.2 c6ctx c6channelErr "socket closed" rfl⟩

/-! ## Claim C9 — decrypt paths that do not resolve -/

/-- C9: a configured decrypt path that does not resolve contributes no
diagnostic and leaves the tree untouched, both for the single-path step
and for a whole pass in which no configured path resolves. -/
theorem decrypt_missing_path_no_change_c9 :
    (∀ (C : Ctx) (pillar : Val) (key : String) (rendv : Val),
        resolveKey C pillar key = none →
        decryptOne C pillar key rendv = (pillar, [])) ∧
    (∀ (C : Ctx) (pillar : Val) (conf : List (String × Val)),
        C.decryptConf = some conf → conf ≠ [] →
        (∀ kv ∈ conf, resolveKey C pillar kv.1 = none) →
        decrypt_pillar C pillar = (pillar, [])) := by
  have step : ∀ (C : Ctx) (pillar : Val) (key : String) (rendv : Val),
      resolveKey C pillar key = none →
      decryptOne C pillar key rendv = (pillar, []) := by
    intro C pillar key rendv h
    simp [decryptOne, h]
  refine ⟨step, ?_⟩
  intro C pillar conf hconf hne hall
  have fold : ∀ (l : List (String × Val)) (errs : List String),
      (∀ kv ∈ l, resolveKey C pillar kv.1 = none) →
      l.foldl
        (fun (acc : Val × List String) kv =>
          let r := decryptOne C acc.1 kv.1 kv.2
          (r.1, acc.2 ++ r.2))
        (pillar, errs) = (pillar, errs) := by
    intro l
    induction l with
    | nil => intro errs _; rfl
    | cons kv rest ih =>
        intro errs hl
        have h1 := hl kv (List.mem_cons_self kv rest)
        have := step C pillar kv.1 kv.2 h1
        simp only [List.foldl_cons, this, List.append_nil]
        exact ih errs (fun x hx => hl x (List.mem_cons_of_mem kv hx))
  simp only [decrypt_pillar, hconf]
  rw [if_neg (by simpa using hne)]
  exact fold conf [] hall

def c9ctx : Ctx :=
  { baseCtx with decryptConf := some [("a:b", Val.vbool true)] }

/-- C9 witness: one configured path `a:b` over an empty tree. -/
theorem decrypt_missing_path_no_change_c9_witness :
    decryptOne c9ctx (Val.vdict .nil) "a:b" (Val.vbool true) = (Val.vdict .nil, []) ∧
    decrypt_pillar c9ctx (Val.vdict .nil) = (Val.vdict .nil, []) :=
  ⟨decrypt_missing_path_no_change_c9.1 c9ctx (Val.vdict .nil) "a:b" (Val.vbool true)
      (by decide),
   decrypt_missing_path_no_change_c9.2 c9ctx (Val.vdict .nil) [("a:b", Val.vbool true)]
      rfl (by decide) (by decide)⟩

/-! ## Claim C5 — structurally invalid external-source specifications -/

def c5ctx : Ctx := { baseCtx with extPillarConf := some (Val.vint 3) }

/-- C5 counterexample: a configured `ext_pillar` value that is not a
sequence appends one diagnostic but returns the already-computed pillar
`(a: 1)` unchanged, not the empty tree the claim requires. -/
theorem ext_pillar_nonlist_keeps_pillar_c5 :
    ext_pillar c5ctx (Val.vdict (.cons "a" (Val.vint 1) .nil)) Val.vnull [] =
      (Val.vdict (.cons "a" (Val.vint 1) .nil), [msgExtMalformed]) ∧
    Val.vdict (.cons "a" (Val.vint 1) .nil) ≠ Val.vdict .nil := by
  decide

/-- C5 (amended): a non-sequence `ext_pillar` configuration appends one
fatal diagnostic and returns the incoming pillar unchanged; an entry of
the sequence that is not a mapping short-circuits the run loop to an
empty tree plus one fatal diagnostic appended to the errors accumulated
so far, and this non-mapping-entry case is the situation that discards
already-computed pillar state. -/
theorem ext_pillar_malformed_spec_c5 :
    (∀ (C : Ctx) (pillar dirs : Val) (errs : List String) (conf : Val),
        C.extPillarConf = some conf → conf.isListV = false →
        ext_pillar C pillar dirs errs = (pillar, errs ++ [msgExtMalformed])) ∧
    (∀ (C : Ctx) (dirs bad : Val) (rest : List Val) (pillar : Val) (errs : List String),
        bad.isDictV = false →
        extRunLoop C dirs (bad :: rest) pillar errs =
          (Val.vdict .nil, errs ++ [msgExtMalformed])) := by
  constructor
  · intro C pillar dirs errs conf hconf hl
    cases conf <;> simp_all [ext_pillar, Val.isListV]
  · intro C dirs bad rest pillar errs hd
    cases bad <;> simp_all [extRunLoop, Val.isDictV]

def c5ctxB : Ctx := { baseCtx with extPillarConf := some (Val.vlist (.cons (Val.vint 7) .nil)) }

/-- C5 witness: both parts of the amended theorem at concrete inputs. -/
theorem ext_pillar_malformed_spec_c5_witness :
    ext_pillar c5ctx (Val.vdict (.cons "a" (Val.vint 1) .nil)) Val.vnull [] =
      (Val.vdict (.cons "a" (Val.vint 1) .nil), [msgExtMalformed]) ∧
    extRunLoop c5ctxB Val.vnull [Val.vint 7] (Val.vdict (.cons "a" (Val.vint 1) .nil)) [] =
      (Val.vdict .nil, [msgExtMalformed]) :=
  ⟨(ext_pillar_malformed_spec_c5.1 c5ctx (Val.vdict (.cons "a" (Val.vint 1) .nil))
      Val.vnull [] (Val.vint 3) rfl rfl),
   (ext_pillar_malformed_spec_c5.2 c5ctxB Val.vnull (Val.vint 7) []
      (Val.vdict (.cons "a" (Val.vint 1) .nil)) [] rfl)⟩

end SaltPillar
